import Mathlib

/-!
Shallow embedding of the ACAC net-points leaderboard pipeline
(`compute/compute_rtg.py` and the write behaviour of `compute/compute_war.py`).

Floats are modelled as exact rationals (`ℚ`); pandas `NaN` from failed left
joins is modelled with `Option`, and pandas `fillna` with `Option.getD`.
A `pandas` left merge on a key is modelled by `List.find?` on that key
(first match), and `groupby(...).sum()` by filtering on the key and summing.
-/

namespace AcacWar

/-- One boxscore row (one player in one game), after `normalize_names` and
`to_num` coercion in `process_gender`: every stat column is numeric, with
unparseable or missing values already coerced to 0. -/
structure PlayerRow where
  game_id : String
  team_name : String
  player_name : String
  MIN : ℚ
  FGM : ℚ
  FGA : ℚ
  FTM : ℚ
  FTA : ℚ
  OREB : ℚ
  DREB : ℚ
  AST : ℚ
  STL : ℚ
  BLK : ℚ
  TO : ℚ
  PF : ℚ
  PTS : ℚ
deriving DecidableEq, Repr

/-- One teamstats row (one team in one game), after normalization/coercion
in `process_gender`. Only the columns the computation reads are kept. -/
structure TeamRow where
  game_id : String
  team_name : String
  opp_team_name : String
  team_min : ℚ
  PTS : ℚ
deriving DecidableEq, Repr

/-- Left-merge lookup of the team row for a `(game_id, team_name)` key,
as in `box.merge(team[...], on=["game_id","team_name"], how="left")`
(compute_rtg.py line 152); `none` models the all-NaN unmatched row. -/
def lookupTeam (teams : List TeamRow) (gid tname : String) : Option TeamRow :=
  teams.find? (fun t => t.game_id == gid && t.team_name == tname)

/-- Opponent-points resolution by self-merge on `(game_id, opp_team_name)`
(compute_rtg.py lines 129-130); `none` models the NaN of an unmatched join. -/
def oppLookup (teams : List TeamRow) (t : TeamRow) : Option ℚ :=
  (teams.find? (fun r => r.game_id == t.game_id && r.team_name == t.opp_team_name)).map
    TeamRow.PTS

/-- `team["opp_pts"].fillna(0.0)` (compute_rtg.py line 131): a missing
opponent score is zero-filled. -/
def oppPts (teams : List TeamRow) (t : TeamRow) : ℚ :=
  (oppLookup teams t).getD 0

/-- `team["diff"] = team["PTS"] - team["opp_pts"]` (compute_rtg.py line 132). -/
def diff (teams : List TeamRow) (t : TeamRow) : ℚ :=
  t.PTS - oppPts teams t

/-- Scoring-mix split fraction: `denom = (PTS + opp_pts).replace(0, nan)`,
`split_off = (PTS / denom).fillna(0.5)` (compute_rtg.py lines 145-146). -/
def splitOff (teams : List TeamRow) (t : TeamRow) : ℚ :=
  let d := t.PTS + oppPts teams t
  if d = 0 then 0.5 else t.PTS / d

/-- `team["off_share"] = team["diff"] * split_off` (compute_rtg.py line 147). -/
def offShare (teams : List TeamRow) (t : TeamRow) : ℚ :=
  diff teams t * splitOff teams t

/-- `team["def_share"] = team["diff"] - team["off_share"]`
(compute_rtg.py line 148). -/
def defShare (teams : List TeamRow) (t : TeamRow) : ℚ :=
  diff teams t - offShare teams t

/-- The boxscore rows of one team-game: `box` filtered to a
`(game_id, team_name)` group. -/
def teamGameRows (box : List PlayerRow) (gid tname : String) : List PlayerRow :=
  box.filter (fun b => b.game_id == gid && b.team_name == tname)

/-- `box.groupby(["game_id","team_name"])["MIN"].sum()` for one group
(compute_rtg.py line 138); an absent group sums to 0, matching the
`fillna(0.0)` after the left merge (line 140). -/
def sumMinutes (box : List PlayerRow) (gid tname : String) : ℚ :=
  ((teamGameRows box gid tname).map PlayerRow.MIN).sum

/-- Effective team minutes (compute_rtg.py lines 135-141): rows with
`team_min <= 0` take the boxscore minutes sum for that team-game; all
other rows keep their declared `team_min`. -/
def effTeamMin (box : List PlayerRow) (t : TeamRow) : ℚ :=
  if t.team_min ≤ 0 then sumMinutes box t.game_id t.team_name else t.team_min

/-- Minutes share (compute_rtg.py lines 155-156):
`m["team_min"].replace(0, nan)` then `(MIN / team_min).fillna(0)`.
An unmatched player row (no team row) has NaN team minutes, hence share 0;
a matched row with effective team minutes 0 also resolves to 0. -/
def minShare (box : List PlayerRow) (teams : List TeamRow) (b : PlayerRow) : ℚ :=
  match lookupTeam teams b.game_id b.team_name with
  | none => 0
  | some t =>
      let tm := effTeamMin box t
      if tm = 0 then 0 else b.MIN / tm

/-- Raw offense box weight (compute_rtg.py lines 159-164). -/
def offBoxRaw (b : PlayerRow) : ℚ :=
  b.PTS + 0.7 * b.AST + 0.7 * b.OREB - (b.FGA - b.FGM) - 0.5 * (b.FTA - b.FTM) - b.TO

/-- Raw defense box weight (compute_rtg.py lines 165-168). -/
def defBoxRaw (b : PlayerRow) : ℚ :=
  b.STL + 0.7 * b.BLK + 0.3 * b.DREB - 0.25 * b.PF

/-- `m["off_w"] = m["off_box"].clip(lower=0)` (compute_rtg.py line 171). -/
def offW (b : PlayerRow) : ℚ := max (offBoxRaw b) 0

/-- `m["def_w"] = m["def_box"].clip(lower=0)` (compute_rtg.py line 172). -/
def defW (b : PlayerRow) : ℚ := max (defBoxRaw b) 0

/-- Per-team-game sum of clipped offense weights (compute_rtg.py lines 175-177). -/
def offWSum (box : List PlayerRow) (gid tname : String) : ℚ :=
  ((teamGameRows box gid tname).map offW).sum

/-- Per-team-game sum of clipped defense weights (compute_rtg.py lines 175-177). -/
def defWSum (box : List PlayerRow) (gid tname : String) : ℚ :=
  ((teamGameRows box gid tname).map defW).sum

/-- `np.where(off_sum > 0, off_w/off_sum, min_share)` (compute_rtg.py line 180). -/
def offAlpha (box : List PlayerRow) (teams : List TeamRow) (b : PlayerRow) : ℚ :=
  if 0 < offWSum box b.game_id b.team_name then
    offW b / offWSum box b.game_id b.team_name
  else minShare box teams b

/-- `np.where(def_sum > 0, def_w/def_sum, min_share)` (compute_rtg.py line 181). -/
def defAlpha (box : List PlayerRow) (teams : List TeamRow) (b : PlayerRow) : ℚ :=
  if 0 < defWSum box b.game_id b.team_name then
    defW b / defWSum box b.game_id b.team_name
  else minShare box teams b

/-- Game-level offense value of a matched player row, against its team row `t`:
`Off = 0.4*min_share*off_share + 0.6*off_share*off_alpha`
(compute_rtg.py lines 184, 188, 191). -/
def rowOffVal (box : List PlayerRow) (teams : List TeamRow) (b : PlayerRow) (t : TeamRow) : ℚ :=
  0.4 * minShare box teams b * offShare teams t + 0.6 * offShare teams t * offAlpha box teams b

/-- Game-level defense value of a matched player row, against its team row `t`:
`Def = 0.4*min_share*def_share + 0.6*def_share*def_alpha`
(compute_rtg.py lines 185, 189, 192). -/
def rowDefVal (box : List PlayerRow) (teams : List TeamRow) (b : PlayerRow) (t : TeamRow) : ℚ :=
  0.4 * minShare box teams b * defShare teams t + 0.6 * defShare teams t * defAlpha box teams b

/-- `Off` of a player row; `none` models the NaN of an unmatched left join
(such rows are skipped by the pandas group sums). -/
def rowOff? (box : List PlayerRow) (teams : List TeamRow) (b : PlayerRow) : Option ℚ :=
  (lookupTeam teams b.game_id b.team_name).map (rowOffVal box teams b)

/-- `Def` of a player row; `none` models the NaN of an unmatched left join. -/
def rowDef? (box : List PlayerRow) (teams : List TeamRow) (b : PlayerRow) : Option ℚ :=
  (lookupTeam teams b.game_id b.team_name).map (rowDefVal box teams b)

/-- The boxscore rows of one `(player_name, team_name)` aggregation group
(compute_rtg.py line 199). -/
def playerRows (box : List PlayerRow) (pname tname : String) : List PlayerRow :=
  box.filter (fun b => b.player_name == pname && b.team_name == tname)

/-- Exported `games` column: `m["game_flag"] = 1` summed per player group
(compute_rtg.py lines 196, 200), i.e. the number of player rows. -/
def gamesPlayed (box : List PlayerRow) (pname tname : String) : Nat :=
  (playerRows box pname tname).length

/-- Number of distinct `game_id` values among a player's rows (what the spec
says `games_played` equals). -/
def distinctGames (box : List PlayerRow) (pname tname : String) : Nat :=
  ((playerRows box pname tname).map PlayerRow.game_id).dedup.length

/-! ### File-write effect traces

The only writes the pipeline performs, modelled as an ordered effect trace.
`compute_rtg.process_gender` ends in a single direct
`agg[...].to_csv(out_path)` (compute_rtg.py line 213; line 110 in the empty
case writes the same path directly as well). `compute_war.main` calls
`ensure_roster`, which appends to and rewrites `roster_2025.csv` whenever a
derived player id is not already in the roster (compute_war.py lines 71-74),
then writes `site/leaderboard_2025.csv` directly (line 149). -/

/-- A filesystem effect: a direct whole-file write to a path, or a rename. -/
inductive FsOp where
  | write (path : String)
  | rename (src dst : String)
deriving DecidableEq, Repr

/-- Output path of `process_gender` (compute_rtg.py line 102). -/
def rtgOutPath (gender : String) : String :=
  "data/leaderboard_" ++ gender ++ "_2025.csv"

/-- Write trace of `process_gender`: one direct `to_csv` to the output path
(compute_rtg.py lines 110 and 213). -/
def rtgWriteTrace (gender : String) : List FsOp :=
  [FsOp.write (rtgOutPath gender)]

/-- `ROSTER_PATH` (compute_war.py line 12). -/
def rosterPath : String := "data/roster_2025.csv"

/-- `OUT_LEADERBOARD` (compute_war.py line 13). -/
def warOutPath : String := "site/leaderboard_2025.csv"

/-- Write trace of `compute_war.main`, as a function of the derived player
ids in the boxscores and the ids already in the roster file:
`ensure_roster` writes `ROSTER_PATH` iff some id is new (compute_war.py
lines 71-74), then `main` writes `OUT_LEADERBOARD` directly (line 149). -/
def warWriteTrace (ids rosterIds : List String) : List FsOp :=
  (if ids.any (fun i => !(rosterIds.contains i)) then [FsOp.write rosterPath] else [])
    ++ [FsOp.write warOutPath]

/-- Modelled from the spec: "write to a temporary location and
rename/replace on success". A trace atomically replaces `out` when it never
writes `out` directly and installs it by renaming some temporary path onto
it. Used only to compare the spec's demanded exporter behaviour with the
traces above. -/
def atomicReplace (out : String) (tr : List FsOp) : Prop :=
  (∀ op ∈ tr, op ≠ FsOp.write out) ∧ ∃ tmp, FsOp.rename tmp out ∈ tr

/-! ### Concrete fixtures used by witnesses and counterexamples -/

/-- A well-behaved player row: 40 of 40 minutes, 10 points on 5/5 shooting,
2 steals, so both clipped box weights are positive. -/
def pA : PlayerRow :=
  { game_id := "g1", team_name := "A", player_name := "p", MIN := 40, FGM := 5,
    FGA := 5, FTM := 0, FTA := 0, OREB := 0, DREB := 0, AST := 0, STL := 2,
    BLK := 0, TO := 0, PF := 0, PTS := 10 }

/-- A second row for the same player in the same game (a duplicate
player-game row), with different minutes. -/
def pA2 : PlayerRow :=
  { pA with MIN := 20 }

/-- Team row for `pA`'s team-game; its opponent key "B" has no row. -/
def tA : TeamRow :=
  { game_id := "g1", team_name := "A", opp_team_name := "B", team_min := 40,
    PTS := 80 }

/-- Boxscore fixture with a single player row. -/
def boxA : List PlayerRow := [pA]

/-- Team fixture with a single team row whose opponent is unmatched. -/
def teamsA : List TeamRow := [tA]

/-- Boxscore fixture with a duplicated player-game row. -/
def boxDup : List PlayerRow := [pA, pA2]

/-- A degenerate player row: 0 minutes, 0/5 shooting with 3 turnovers and
4 fouls, so both raw box weights are negative and clip to 0. -/
def pZ : PlayerRow :=
  { game_id := "g2", team_name := "C", player_name := "z", MIN := 0, FGM := 0,
    FGA := 5, FTM := 0, FTA := 0, OREB := 0, DREB := 0, AST := 0, STL := 0,
    BLK := 0, TO := 3, PF := 4, PTS := 0 }

/-- Team row with declared minutes 0 and both scores 0; its opponent key "D"
has no row. -/
def tZ : TeamRow :=
  { game_id := "g2", team_name := "C", opp_team_name := "D", team_min := 0,
    PTS := 0 }

/-- Boxscore fixture whose only team-game has all clipped weights 0 and a
player-minutes sum of 0. -/
def boxZ : List PlayerRow := [pZ]

/-- Team fixture for the degenerate team-game. -/
def teamsZ : List TeamRow := [tZ]

/-- A losing team-game: team "E" scores 50, opponent "F" scores 60. -/
def tL : TeamRow :=
  { game_id := "g3", team_name := "E", opp_team_name := "F", team_min := 40,
    PTS := 50 }

/-- The opponent row of `tL`. -/
def tF : TeamRow :=
  { game_id := "g3", team_name := "F", opp_team_name := "E", team_min := 40,
    PTS := 60 }

/-- The losing team's only player: full minutes, positive box weights. -/
def pL : PlayerRow :=
  { game_id := "g3", team_name := "E", player_name := "q", MIN := 40, FGM := 5,
    FGA := 5, FTM := 0, FTA := 0, OREB := 0, DREB := 0, AST := 0, STL := 2,
    BLK := 0, TO := 0, PF := 0, PTS := 10 }

/-- Boxscore fixture for the losing team-game. -/
def boxL : List PlayerRow := [pL]

/-- Team fixture containing both sides of game "g3". -/
def teamsL : List TeamRow := [tL, tF]

/-! ### Helper lemmas -/

/-- Membership in a team-game group fixes the row's key fields. -/
theorem mem_teamGameRows {box : List PlayerRow} {gid tname : String} {b : PlayerRow}
    (hb : b ∈ teamGameRows box gid tname) :
    b.game_id = gid ∧ b.team_name = tname := by
  simp only [teamGameRows, List.mem_filter, Bool.and_eq_true, beq_iff_eq] at hb
  exact hb.2

/-- A `filterMap` that never drops an element is a `map`. -/
theorem filterMap_eq_map_of_some {α β : Type} {l : List α} {f : α → Option β} {g : α → β}
    (h : ∀ a ∈ l, f a = some (g a)) : l.filterMap f = l.map g := by
  induction l with
  | nil => rfl
  | cons x xs ih =>
      simp only [List.filterMap_cons, h x (List.mem_cons_self x xs), List.map_cons]
      rw [ih (fun a ha => h a (List.mem_cons_of_mem x ha))]

/-- Summing the blended allocation formula distributes over the two weight
columns. -/
theorem sum_map_mix {α : Type} (l : List α) (f g : α → ℚ) (c d S : ℚ) :
    (l.map (fun a => c * f a * S + d * S * g a)).sum
      = c * (l.map f).sum * S + d * S * (l.map g).sum := by
  induction l with
  | nil => simp
  | cons x xs ih => simp only [List.map_cons, List.sum_cons, ih]; ring

/-! ### Claim theorems -/

/-- C1: Conservation. For any team-game with at least one player row whose
minutes shares sum to 1 and whose normalized box alphas sum to 1 in each
category, the player game-level offense values sum exactly to
`off_share` and the defense values sum exactly to `def_share` (exact in ℚ,
hence within any floating-point tolerance). -/
theorem C1_conservation (box : List PlayerRow) (teams : List TeamRow)
    (gid tname : String) (t : TeamRow)
    (ht : lookupTeam teams gid tname = some t)
    (hne : teamGameRows box gid tname ≠ [])
    (hms : ((teamGameRows box gid tname).map (minShare box teams)).sum = 1)
    (hoa : ((teamGameRows box gid tname).map (offAlpha box teams)).sum = 1)
    (hda : ((teamGameRows box gid tname).map (defAlpha box teams)).sum = 1) :
    ((teamGameRows box gid tname).filterMap (rowOff? box teams)).sum = offShare teams t ∧
    ((teamGameRows box gid tname).filterMap (rowDef? box teams)).sum = defShare teams t := by
  have hkey : ∀ b ∈ teamGameRows box gid tname,
      lookupTeam teams b.game_id b.team_name = some t := by
    intro b hb
    obtain ⟨h1, h2⟩ := mem_teamGameRows hb
    rw [h1, h2, ht]
  constructor
  · rw [filterMap_eq_map_of_some (g := fun b => rowOffVal box teams b t)
      (fun b hb => by simp [rowOff?, hkey b hb])]
    simp only [rowOffVal]
    rw [sum_map_mix, hms, hoa]
    ring
  · rw [filterMap_eq_map_of_some (g := fun b => rowDefVal box teams b t)
      (fun b hb => by simp [rowDef?, hkey b hb])]
    simp only [rowDefVal]
    rw [sum_map_mix, hms, hda]
    ring

/-- Witness for C1: a concrete one-player team-game whose minutes share and
both box alphas each sum to 1; the player value sums equal the shares. -/
theorem C1_conservation_witness :
    lookupTeam teamsA "g1" "A" = some tA ∧ teamGameRows boxA "g1" "A" ≠ [] ∧
    ((teamGameRows boxA "g1" "A").filterMap (rowOff? boxA teamsA)).sum = offShare teamsA tA ∧
    ((teamGameRows boxA "g1" "A").filterMap (rowDef? boxA teamsA)).sum = defShare teamsA tA := by
  have h1 : lookupTeam teamsA "g1" "A" = some tA := by decide
  have h2 : teamGameRows boxA "g1" "A" ≠ [] := by decide
  have hms : ((teamGameRows boxA "g1" "A").map (minShare boxA teamsA)).sum = 1 := by
    simp [teamGameRows, boxA, teamsA, pA, tA, minShare, lookupTeam, effTeamMin, sumMinutes]
  have hoa : ((teamGameRows boxA "g1" "A").map (offAlpha boxA teamsA)).sum = 1 := by
    simp [teamGameRows, boxA, teamsA, pA, tA, offAlpha, offWSum, offW, offBoxRaw, minShare,
      lookupTeam, effTeamMin, sumMinutes]
  have hda : ((teamGameRows boxA "g1" "A").map (defAlpha boxA teamsA)).sum = 1 := by
    simp [teamGameRows, boxA, teamsA, pA, tA, defAlpha, defWSum, defW, defBoxRaw, minShare,
      lookupTeam, effTeamMin, sumMinutes]
  exact ⟨h1, h2, C1_conservation boxA teamsA "g1" "A" tA h1 h2 hms hoa hda⟩

/-- C3: for every team-game, `off_share + def_share` equals the differential
exactly; when the score sum is nonzero the offense share is
`diff * (PTS / (PTS + opp_pts))`, and when both scores are zero the split
fraction falls back to 0.5. -/
theorem C3_share_decomposition (teams : List TeamRow) (t : TeamRow) :
    offShare teams t + defShare teams t = diff teams t ∧
    (t.PTS + oppPts teams t ≠ 0 →
      offShare teams t = diff teams t * (t.PTS / (t.PTS + oppPts teams t))) ∧
    (t.PTS = 0 → oppPts teams t = 0 → splitOff teams t = 0.5) := by
  refine ⟨by simp only [defShare]; ring, fun h => ?_, fun h1 h2 => ?_⟩
  · simp only [offShare, splitOff]
    rw [if_neg h]
  · simp [splitOff, h1, h2]

/-- Witness for C3: the decomposition at a concrete team-game with nonzero
score sum, and the 0.5 fallback at a concrete 0-0 team-game. -/
theorem C3_share_decomposition_witness :
    (offShare teamsA tA + defShare teamsA tA = diff teamsA tA) ∧
    tA.PTS + oppPts teamsA tA ≠ 0 ∧
    offShare teamsA tA = diff teamsA tA * (tA.PTS / (tA.PTS + oppPts teamsA tA)) ∧
    tZ.PTS = 0 ∧ oppPts teamsZ tZ = 0 ∧ splitOff teamsZ tZ = 0.5 := by
  have hne : tA.PTS + oppPts teamsA tA ≠ 0 := by
    simp [oppPts, oppLookup, teamsA, tA]
  have h1 : tZ.PTS = 0 := rfl
  have h2 : oppPts teamsZ tZ = 0 := by simp [oppPts, oppLookup, teamsZ, tZ]
  exact ⟨(C3_share_decomposition teamsA tA).1, hne,
    (C3_share_decomposition teamsA tA).2.1 hne, h1, h2,
    (C3_share_decomposition teamsZ tZ).2.2 h1 h2⟩

/-- C4: degenerate-weight fallback. If a team-game's clipped offense weight
sum is 0, every player of that team-game gets `off_alpha = min_share`
(and symmetrically for defense); no division by the zero sum occurs. -/
theorem C4_degenerate_weight_fallback (box : List PlayerRow) (teams : List TeamRow)
    (b : PlayerRow) :
    (offWSum box b.game_id b.team_name = 0 → offAlpha box teams b = minShare box teams b) ∧
    (defWSum box b.game_id b.team_name = 0 → defAlpha box teams b = minShare box teams b) := by
  constructor
  · intro h; simp [offAlpha, h]
  · intro h; simp [defAlpha, h]

/-- Witness for C4: a concrete team-game whose only player has all-negative
raw box weights, so both clipped sums are 0 and both alphas fall back. -/
theorem C4_degenerate_weight_fallback_witness :
    offWSum boxZ "g2" "C" = 0 ∧ defWSum boxZ "g2" "C" = 0 ∧
    offAlpha boxZ teamsZ pZ = minShare boxZ teamsZ pZ ∧
    defAlpha boxZ teamsZ pZ = minShare boxZ teamsZ pZ := by
  have h1 : offWSum boxZ "g2" "C" = 0 := by
    simp [offWSum, teamGameRows, boxZ, pZ, offW, offBoxRaw]
    norm_num
  have h2 : defWSum boxZ "g2" "C" = 0 := by
    simp [defWSum, teamGameRows, boxZ, pZ, defW, defBoxRaw]
    norm_num
  exact ⟨h1, h2, (C4_degenerate_weight_fallback boxZ teamsZ pZ).1 h1,
    (C4_degenerate_weight_fallback boxZ teamsZ pZ).2 h2⟩

/-- C9: zero-minutes safety. A matched player row whose team-game has
effective team minutes 0 (after all fallbacks) gets `min_share = 0`; the
computation is total, so no division error can occur. -/
theorem C9_zero_minutes_safety (box : List PlayerRow) (teams : List TeamRow)
    (b : PlayerRow) (t : TeamRow)
    (hl : lookupTeam teams b.game_id b.team_name = some t)
    (h0 : effTeamMin box t = 0) :
    minShare box teams b = 0 := by
  simp [minShare, hl, h0]

/-- Witness for C9: a concrete team-game with declared minutes 0 and player
minutes summing to 0, whose player's minutes share is 0. -/
theorem C9_zero_minutes_safety_witness :
    effTeamMin boxZ tZ = 0 ∧ minShare boxZ teamsZ pZ = 0 := by
  have h0 : effTeamMin boxZ tZ = 0 := by
    simp [effTeamMin, tZ, sumMinutes, teamGameRows, boxZ, pZ]
  exact ⟨h0, C9_zero_minutes_safety boxZ teamsZ pZ tZ (by decide) h0⟩

/-- C10: in a team-game lost with a positive score (0 < PTS < opp_pts),
both shares of the differential are negative, and any player of that game
with positive minutes share and positive alphas receives negative game-level
offense and defense values, despite the clipped non-negative box weights. -/
theorem C10_negative_values (box : List PlayerRow) (teams : List TeamRow)
    (b : PlayerRow) (t : TeamRow)
    (hl : lookupTeam teams b.game_id b.team_name = some t)
    (hpts : 0 < t.PTS) (hopp : t.PTS < oppPts teams t)
    (hms : 0 < minShare box teams b)
    (hoa : 0 < offAlpha box teams b) (hda : 0 < defAlpha box teams b) :
    offShare teams t < 0 ∧ defShare teams t < 0 ∧
    rowOff? box teams b = some (rowOffVal box teams b t) ∧
    rowDef? box teams b = some (rowDefVal box teams b t) ∧
    rowOffVal box teams b t < 0 ∧ rowDefVal box teams b t < 0 := by
  have hden : 0 < t.PTS + oppPts teams t := by linarith
  have hdiff : diff teams t < 0 := by simp only [diff]; linarith
  have hsplit : splitOff teams t = t.PTS / (t.PTS + oppPts teams t) := by
    simp only [splitOff]
    rw [if_neg (ne_of_gt hden)]
  have hsplitpos : 0 < splitOff teams t := by
    rw [hsplit]; exact div_pos hpts hden
  have hsplitlt : splitOff teams t < 1 := by
    rw [hsplit, div_lt_one hden]; linarith
  have hoffneg : offShare teams t < 0 := mul_neg_of_neg_of_pos hdiff hsplitpos
  have hdefneg : defShare teams t < 0 := by
    have hd : defShare teams t = diff teams t * (1 - splitOff teams t) := by
      simp only [defShare, offShare]; ring
    rw [hd]
    exact mul_neg_of_neg_of_pos hdiff (by linarith)
  refine ⟨hoffneg, hdefneg, by simp [rowOff?, hl], by simp [rowDef?, hl], ?_, ?_⟩
  · have t1 : 0.4 * minShare box teams b * offShare teams t < 0 :=
      mul_neg_of_pos_of_neg (mul_pos (by norm_num) hms) hoffneg
    have t2 : 0.6 * offShare teams t * offAlpha box teams b < 0 :=
      mul_neg_of_neg_of_pos (mul_neg_of_pos_of_neg (by norm_num) hoffneg) hoa
    simp only [rowOffVal]
    linarith
  · have t1 : 0.4 * minShare box teams b * defShare teams t < 0 :=
      mul_neg_of_pos_of_neg (mul_pos (by norm_num) hms) hdefneg
    have t2 : 0.6 * defShare teams t * defAlpha box teams b < 0 :=
      mul_neg_of_neg_of_pos (mul_neg_of_pos_of_neg (by norm_num) hdefneg) hda
    simp only [rowDefVal]
    linarith

/-- Witness for C10: the concrete 50-60 loss; both shares and both player
values come out negative. -/
theorem C10_negative_values_witness :
    (0 : ℚ) < tL.PTS ∧ tL.PTS < oppPts teamsL tL ∧
    offShare teamsL tL < 0 ∧ defShare teamsL tL < 0 ∧
    rowOff? boxL teamsL pL = some (rowOffVal boxL teamsL pL tL) ∧
    rowDef? boxL teamsL pL = some (rowDefVal boxL teamsL pL tL) ∧
    rowOffVal boxL teamsL pL tL < 0 ∧ rowDefVal boxL teamsL pL tL < 0 := by
  have hopp : oppPts teamsL tL = 60 := by simp [oppPts, oppLookup, teamsL, tL, tF]
  have hms : minShare boxL teamsL pL = 1 := by
    simp [minShare, lookupTeam, boxL, teamsL, pL, tL, tF, effTeamMin, sumMinutes, teamGameRows]
  have hoa : offAlpha boxL teamsL pL = 1 := by
    simp [offAlpha, offWSum, offW, offBoxRaw, boxL, teamsL, pL, teamGameRows, minShare,
      lookupTeam, effTeamMin, sumMinutes]
  have hda : defAlpha boxL teamsL pL = 1 := by
    simp [defAlpha, defWSum, defW, defBoxRaw, boxL, teamsL, pL, teamGameRows, minShare,
      lookupTeam, effTeamMin, sumMinutes]
  have h1 : (0 : ℚ) < tL.PTS := by norm_num [tL]
  have h2 : tL.PTS < oppPts teamsL tL := by rw [hopp]; norm_num [tL]
  obtain ⟨c1, c2, c3, c4, c5, c6⟩ :=
    C10_negative_values boxL teamsL pL tL (by decide) h1 h2
      (by rw [hms]; norm_num) (by rw [hoa]; norm_num) (by rw [hda]; norm_num)
  exact ⟨h1, h2, c1, c2, c3, c4, c5, c6⟩

/-- C2 counterexample: team-game ("g1","A") has no row for its opponent key
("g1","B"), yet the opponent score is zero-filled: the differential is the
defined value 80 (its own points), and the team-game stays in the allocation
(the full differential goes to offense and the player row still gets a
defined game value) — it is not excluded. -/
theorem C2_counterexample :
    oppLookup teamsA tA = none ∧ oppPts teamsA tA = 0 ∧
    diff teamsA tA = 80 ∧ offShare teamsA tA = 80 ∧ defShare teamsA tA = 0 ∧
    rowOff? boxA teamsA pA = some (rowOffVal boxA teamsA pA tA) := by
  have hl : lookupTeam teamsA pA.game_id pA.team_name = some tA := by decide
  have h0 : oppPts teamsA tA = 0 := by simp [oppPts, oppLookup, teamsA, tA]
  refine ⟨by decide, h0, ?_, ?_, ?_, by simp [rowOff?, hl]⟩
  · simp only [diff, h0]
    norm_num [tA]
  · simp [offShare, diff, splitOff, oppPts, oppLookup, teamsA, tA]
  · simp [defShare, offShare, diff, splitOff, oppPts, oppLookup, teamsA, tA]

/-- C2 amended: a team-game whose opponent key resolves to no row has its
opponent points zero-filled (not excluded): its differential equals its own
points, and when those points are nonzero the whole differential is
attributed to offense with defense share 0. -/
theorem C2_amended_zero_fill (teams : List TeamRow) (t : TeamRow)
    (h : oppLookup teams t = none) :
    oppPts teams t = 0 ∧ diff teams t = t.PTS ∧
    (t.PTS ≠ 0 → offShare teams t = t.PTS ∧ defShare teams t = 0) := by
  have h0 : oppPts teams t = 0 := by simp [oppPts, h]
  have hdiff : diff teams t = t.PTS := by simp [diff, h0]
  refine ⟨h0, hdiff, fun hp => ?_⟩
  have hs : splitOff teams t = 1 := by
    simp only [splitOff, h0, add_zero]
    rw [if_neg hp]
    exact div_self hp
  constructor
  · rw [offShare, hs, hdiff, mul_one]
  · rw [defShare, offShare, hs, hdiff, mul_one, sub_self]

/-- Witness for C2 amended: the concrete unmatched team-game ("g1","A"). -/
theorem C2_amended_zero_fill_witness :
    oppLookup teamsA tA = none ∧ tA.PTS ≠ 0 ∧
    oppPts teamsA tA = 0 ∧ diff teamsA tA = tA.PTS ∧
    offShare teamsA tA = tA.PTS ∧ defShare teamsA tA = 0 := by
  have h : oppLookup teamsA tA = none := by decide
  have hp : tA.PTS ≠ 0 := by norm_num [tA]
  obtain ⟨h0, hd, hsplit⟩ := C2_amended_zero_fill teamsA tA h
  obtain ⟨ho, hdef⟩ := hsplit hp
  exact ⟨h, hp, h0, hd, ho, hdef⟩

/-- C5 counterexample: team-game ("g2","C") has declared team minutes 0 and
player minutes summing to 0; its effective team minutes stay 0 — the code
has no fixed 40-minute default. -/
theorem C5_counterexample :
    tZ.team_min = 0 ∧ sumMinutes boxZ "g2" "C" = 0 ∧
    effTeamMin boxZ tZ = 0 ∧ effTeamMin boxZ tZ ≠ 40 := by
  have hs : sumMinutes boxZ "g2" "C" = 0 := by
    simp [sumMinutes, teamGameRows, boxZ, pZ]
  have he : effTeamMin boxZ tZ = 0 := by
    simp [effTeamMin, tZ, sumMinutes, teamGameRows, boxZ, pZ]
  exact ⟨rfl, hs, he, by rw [he]; norm_num⟩

/-- C5 amended: when declared team minutes are ≤ 0, effective team minutes
are recomputed as the player-minutes sum of that team-game; if that sum is
also 0 they remain 0 (there is no fixed 40 fallback) and every matched
player's minutes share resolves to 0. -/
theorem C5_amended_team_minutes (box : List PlayerRow) (teams : List TeamRow)
    (t : TeamRow) (b : PlayerRow) (hdecl : t.team_min ≤ 0) :
    effTeamMin box t = sumMinutes box t.game_id t.team_name ∧
    (sumMinutes box t.game_id t.team_name = 0 →
      effTeamMin box t = 0 ∧
      (lookupTeam teams b.game_id b.team_name = some t → minShare box teams b = 0)) := by
  have h1 : effTeamMin box t = sumMinutes box t.game_id t.team_name := by
    simp [effTeamMin, hdecl]
  exact ⟨h1, fun hz => ⟨h1.trans hz, fun hl => by simp [minShare, hl, h1.trans hz]⟩⟩

/-- Witness for C5 amended: the concrete degenerate team-game ("g2","C"). -/
theorem C5_amended_team_minutes_witness :
    tZ.team_min ≤ 0 ∧ sumMinutes boxZ "g2" "C" = 0 ∧
    effTeamMin boxZ tZ = sumMinutes boxZ "g2" "C" ∧
    effTeamMin boxZ tZ = 0 ∧ minShare boxZ teamsZ pZ = 0 := by
  have hdecl : tZ.team_min ≤ 0 := by norm_num [tZ]
  have hz : sumMinutes boxZ "g2" "C" = 0 := by
    simp [sumMinutes, teamGameRows, boxZ, pZ]
  obtain ⟨h1, h2⟩ := C5_amended_team_minutes boxZ teamsZ tZ pZ hdecl
  obtain ⟨h3, h4⟩ := h2 hz
  exact ⟨hdecl, hz, h1, h3, h4 (by decide)⟩

/-- C6 counterexample: with two rows for player "p" of team "A" in the same
game "g1", the exported games value is 2 (the row count) while the number of
distinct game ids is 1. -/
theorem C6_counterexample :
    gamesPlayed boxDup "p" "A" = 2 ∧ distinctGames boxDup "p" "A" = 1 ∧
    gamesPlayed boxDup "p" "A" ≠ distinctGames boxDup "p" "A" := by
  exact ⟨by decide, by decide, by decide⟩

/-- C6 amended: the exported games value is the number of player rows in the
player's aggregation group; it equals the number of distinct game ids
exactly on inputs where those rows' game ids are pairwise distinct. -/
theorem C6_amended_games_rows (box : List PlayerRow) (pname tname : String)
    (h : ((playerRows box pname tname).map PlayerRow.game_id).Nodup) :
    gamesPlayed box pname tname = (playerRows box pname tname).length ∧
    gamesPlayed box pname tname = distinctGames box pname tname := by
  refine ⟨rfl, ?_⟩
  unfold gamesPlayed distinctGames
  rw [List.dedup_eq_self.mpr h, List.length_map]

/-- Witness for C6 amended: a duplicate-free fixture. -/
theorem C6_amended_games_rows_witness :
    ((playerRows boxA "p" "A").map PlayerRow.game_id).Nodup ∧
    gamesPlayed boxA "p" "A" = distinctGames boxA "p" "A" := by
  have h : ((playerRows boxA "p" "A").map PlayerRow.game_id).Nodup := by decide
  exact ⟨h, (C6_amended_games_rows boxA "p" "A" h).2⟩

/-- C7 counterexample: neither exporter's write trace atomically replaces
its output — each writes the final output path directly (and performs no
rename at all), so a crash mid-write can leave a partial file visible. -/
theorem C7_counterexample :
    ¬ atomicReplace (rtgOutPath "men") (rtgWriteTrace "men") ∧
    ¬ atomicReplace warOutPath (warWriteTrace [] []) := by
  constructor
  · rintro ⟨h1, -⟩
    exact h1 (FsOp.write (rtgOutPath "men")) (by simp [rtgWriteTrace]) rfl
  · rintro ⟨h1, -⟩
    exact h1 (FsOp.write warOutPath) (by simp [warWriteTrace]) rfl

/-- C7 amended: the exporters write their leaderboard files in place: every
trace contains a direct write of the final output path and contains no
rename, hence no temporary-location-then-replace step. -/
theorem C7_amended_direct_write (gender : String) (ids rosterIds : List String)
    (tmp dst : String) :
    FsOp.write (rtgOutPath gender) ∈ rtgWriteTrace gender ∧
    FsOp.write warOutPath ∈ warWriteTrace ids rosterIds ∧
    FsOp.rename tmp dst ∉ rtgWriteTrace gender ∧
    FsOp.rename tmp dst ∉ warWriteTrace ids rosterIds := by
  refine ⟨by simp [rtgWriteTrace], ?_, by simp [rtgWriteTrace], ?_⟩
  · simp [warWriteTrace]
  · simp [warWriteTrace]

/-- C8 counterexample: a run of `compute_war.main` whose boxscores contain a
player id absent from the roster writes `data/roster_2025.csv` — a second
persistent file besides the exported leaderboard. -/
theorem C8_counterexample :
    FsOp.write rosterPath ∈ warWriteTrace ["mru-2025-ada-lee"] [] ∧
    rosterPath ≠ warOutPath := by
  exact ⟨by decide, by decide⟩

/-- C8 amended: a `process_gender` run writes only its leaderboard file, and
a `compute_war.main` run with no new player ids writes only its leaderboard
file; the roster file is written exactly when some player id is new, and is
the one extra piece of cross-run state. -/
theorem C8_amended_persisted_files (gender : String) (ids rosterIds : List String)
    (hnone : ids.any (fun i => !(rosterIds.contains i)) = false) :
    (∀ op ∈ rtgWriteTrace gender, op = FsOp.write (rtgOutPath gender)) ∧
    (∀ op ∈ warWriteTrace ids rosterIds, op = FsOp.write warOutPath) := by
  constructor
  · intro op hop
    simpa [rtgWriteTrace] using hop
  · intro op hop
    simp only [warWriteTrace] at hop
    rw [hnone] at hop
    simpa using hop

/-- Witness for C8 amended: with the lone boxscore id already rostered, the
war pipeline's trace is exactly one leaderboard write. -/
theorem C8_amended_persisted_files_witness :
    (["ada"].any (fun i => !((["ada"] : List String).contains i)) = false) ∧
    (∀ op ∈ warWriteTrace ["ada"] ["ada"], op = FsOp.write warOutPath) := by
  have h : (["ada"].any (fun i => !((["ada"] : List String).contains i)) = false) := by decide
  exact ⟨h, (C8_amended_persisted_files "men" ["ada"] ["ada"] h).2⟩

end AcacWar
